import Mathlib

/-!
Redis-Operator: sanity-check driver, cluster node table, service creation

A shallow embedding of three source files of the operator:

* `pkg/controller/sanitycheck/process.go` : `RunSanityChecks`
* `pkg/redis/cluster.go` : `NewCluster`, `AddNode`, `GetNodeByID`, `GetNodeByFunc`, ...
* `pkg/controller/service_control.go` : `CreateRedisClusterService`

Stateful Go code is embedded by explicit state passing; a Go `error` is an
`Option` whose `none` is `nil`.
-/

/-! ## Go `time` constants (nanoseconds, as in `time.Duration`) -/

namespace time

/-- One nanosecond, the unit of `time.Duration`. -/
def Nanosecond : Int := 1

/-- Go: `Microsecond = 1000 * Nanosecond`. -/
def Microsecond : Int := 1000 * Nanosecond

/-- Go: `Millisecond = 1000 * Microsecond`. -/
def Millisecond : Int := 1000 * Microsecond

/-- Go: `Second = 1000 * Millisecond`. -/
def Second : Int := 1000 * Millisecond

/-- Go: `Minute = 60 * Second`. -/
def Minute : Int := 60 * Second

end time

/-! ## `pkg/controller/sanitycheck/process.go` -/

namespace sanitycheck

/-- The pair `(actionDone, err)` that every check and the driver return. -/
structure Outcome (ε : Type) where
  actionDone : Bool
  err : Option ε
deriving DecidableEq, Repr

/-- The four checks called by `RunSanityChecks`. Their bodies live in other
files of the package, so they are parameters here. `σ` is the state of the
world the checks act on (the redis nodes behind `admin`, the pods behind
`podControl`); every check maps the state before the call to its returned
pair and the state after the call. The argument order is the one of the call
sites in `process.go`. -/
structure Checks (A C P R I ε σ : Type) where
  FixFailedNodes : A → R → I → Bool → σ → Outcome ε × σ
  FixUntrustedNodes : A → P → R → I → Bool → σ → Outcome ε × σ
  FixTerminatingPods : R → P → Int → Bool → σ → Outcome ε × σ
  FixClusterSplit : A → C → I → Bool → σ → Outcome ε × σ

/-- The names of the four checks. -/
inductive CheckName where
  | FixFailedNodes
  | FixUntrustedNodes
  | FixTerminatingPods
  | FixClusterSplit
deriving DecidableEq, Repr

/-- Position of a check in the text of `RunSanityChecks`. -/
def CheckName.rank : CheckName → Nat
  | .FixFailedNodes => 0
  | .FixUntrustedNodes => 1
  | .FixTerminatingPods => 2
  | .FixClusterSplit => 3

/-- The order in which `RunSanityChecks` lists the checks. -/
def checkOrder : List CheckName :=
  [.FixFailedNodes, .FixUntrustedNodes, .FixTerminatingPods, .FixClusterSplit]

/-- One call of a check, with the arguments handed to it. -/
inductive Call (A C P R I : Type) where
  | FixFailedNodes (admin : A) (cluster : R) (infos : I) (dryRun : Bool)
  | FixUntrustedNodes (admin : A) (podControl : P) (cluster : R) (infos : I) (dryRun : Bool)
  | FixTerminatingPods (cluster : R) (podControl : P) (maxDuration : Int) (dryRun : Bool)
  | FixClusterSplit (admin : A) (config : C) (infos : I) (dryRun : Bool)
deriving DecidableEq, Repr

variable {A C P R I ε σ : Type}

/-- Which check a call invokes. -/
def Call.name : Call A C P R I → CheckName
  | .FixFailedNodes .. => .FixFailedNodes
  | .FixUntrustedNodes .. => .FixUntrustedNodes
  | .FixTerminatingPods .. => .FixTerminatingPods
  | .FixClusterSplit .. => .FixClusterSplit

/-- The `dryRun` argument of a call. -/
def Call.dryRun : Call A C P R I → Bool
  | .FixFailedNodes _ _ _ d => d
  | .FixUntrustedNodes _ _ _ _ d => d
  | .FixTerminatingPods _ _ _ d => d
  | .FixClusterSplit _ _ _ d => d

/-- Performing a recorded call with the given checks. -/
def Call.perform (k : Checks A C P R I ε σ) : Call A C P R I → σ → Outcome ε × σ
  | .FixFailedNodes admin cluster infos d => k.FixFailedNodes admin cluster infos d
  | .FixUntrustedNodes admin podControl cluster infos d =>
      k.FixUntrustedNodes admin podControl cluster infos d
  | .FixTerminatingPods cluster podControl maxDuration d =>
      k.FixTerminatingPods cluster podControl maxDuration d
  | .FixClusterSplit admin config infos d => k.FixClusterSplit admin config infos d

/-- The state left by performing the calls one after the other. -/
def replay (k : Checks A C P R I ε σ) : List (Call A C P R I) → σ → σ
  | [], s => s
  | c :: cs, s => replay k cs (c.perform k s).2

/-- Performing the calls one after the other from the state `s`: each call
with the pair the check returns on the state left by the calls before it. -/
def performAll (k : Checks A C P R I ε σ) :
    List (Call A C P R I) → σ → List (Call A C P R I × Outcome ε)
  | [], _ => []
  | c :: cs, s => (c, (c.perform k s).1) :: performAll k cs (c.perform k s).2

/-- What one run of `RunSanityChecks` yields: the returned pair, the state
of the world after the run, and the calls of checks it made, in order, each
with the pair that call returned. -/
structure Run (A C P R I ε σ : Type) where
  actionDone : Bool
  err : Option ε
  state : σ
  calls : List (Call A C P R I × Outcome ε)

/-- The pair a run returns. -/
def Run.result (r : Run A C P R I ε σ) : Outcome ε := ⟨r.actionDone, r.err⟩

/-- Go `RunSanityChecks` (process.go, lines 16-50). Each `if` of the source
assigns the named results `actionDone, err` from one check, returns
`actionDone, err` when `err != nil`, returns `actionDone, nil` when
`actionDone`, and falls through otherwise; the last line returns
`actionDone, err`. The `glog` lines write to the log only and are left out. -/
def RunSanityChecks (k : Checks A C P R I ε σ) (admin : A) (config : C) (podControl : P)
    (cluster : R) (infos : I) (dryRun : Bool) (s : σ) : Run A C P R I ε σ :=
  let r1 := k.FixFailedNodes admin cluster infos dryRun s
  let t1 := [(Call.FixFailedNodes admin cluster infos dryRun, r1.1)]
  if r1.1.err.isSome then ⟨r1.1.actionDone, r1.1.err, r1.2, t1⟩
  else if r1.1.actionDone then ⟨r1.1.actionDone, none, r1.2, t1⟩
  else
    let r2 := k.FixUntrustedNodes admin podControl cluster infos dryRun r1.2
    let t2 := t1 ++ [(Call.FixUntrustedNodes admin podControl cluster infos dryRun, r2.1)]
    if r2.1.err.isSome then ⟨r2.1.actionDone, r2.1.err, r2.2, t2⟩
    else if r2.1.actionDone then ⟨r2.1.actionDone, none, r2.2, t2⟩
    else
      let r3 := k.FixTerminatingPods cluster podControl (5 * time.Minute) dryRun r2.2
      let t3 := t2 ++ [(Call.FixTerminatingPods cluster podControl (5 * time.Minute) dryRun, r3.1)]
      if r3.1.err.isSome then ⟨r3.1.actionDone, r3.1.err, r3.2, t3⟩
      else if r3.1.actionDone then ⟨r3.1.actionDone, none, r3.2, t3⟩
      else
        let r4 := k.FixClusterSplit admin config infos dryRun r3.2
        let t4 := t3 ++ [(Call.FixClusterSplit admin config infos dryRun, r4.1)]
        if r4.1.err.isSome then ⟨r4.1.actionDone, r4.1.err, r4.2, t4⟩
        else if r4.1.actionDone then ⟨r4.1.actionDone, none, r4.2, t4⟩
        else ⟨r4.1.actionDone, r4.1.err, r4.2, t4⟩

/-- The pairs the four checks return when run one after the other, each on
the state left by the ones before it. -/
def outcomesInOrder (k : Checks A C P R I ε σ) (admin : A) (config : C) (podControl : P)
    (cluster : R) (infos : I) (dryRun : Bool) (s : σ) : List (Outcome ε) :=
  let r1 := k.FixFailedNodes admin cluster infos dryRun s
  let r2 := k.FixUntrustedNodes admin podControl cluster infos dryRun r1.2
  let r3 := k.FixTerminatingPods cluster podControl (5 * time.Minute) dryRun r2.2
  let r4 := k.FixClusterSplit admin config infos dryRun r3.2
  [r1.1, r2.1, r3.1, r4.1]

/-- A pair other than `(false, nil)`. -/
def Outcome.decisive (o : Outcome ε) : Bool := o.actionDone || o.err.isSome

/-- The contract of the driver in the words of the specification: the first
pair of the list that is not `(false, nil)`, and `(false, nil)` when there is
none. -/
def firstDecisive (l : List (Outcome ε)) : Outcome ε :=
  (l.find? Outcome.decisive).getD ⟨false, none⟩

/-- The hypothesis of the dry-run property: whatever the other arguments and
the state, a check called with `dryRun = true` leaves the record `mutations`
of the mutating calls that reached the admin client and the pod collaborator
as it found it. -/
def Checks.dryRunSilent {μ : Type} (k : Checks A C P R I ε σ) (mutations : σ → μ) : Prop :=
  (∀ admin cluster infos s,
    mutations (k.FixFailedNodes admin cluster infos true s).2 = mutations s) ∧
  (∀ admin podControl cluster infos s,
    mutations (k.FixUntrustedNodes admin podControl cluster infos true s).2 = mutations s) ∧
  (∀ cluster podControl maxDuration s,
    mutations (k.FixTerminatingPods cluster podControl maxDuration true s).2 = mutations s) ∧
  (∀ admin config infos s,
    mutations (k.FixClusterSplit admin config infos true s).2 = mutations s)

/-- A small instance of the checks, used to exercise the theorems: the state
is the list of mutating calls issued so far. No node has failed; one node is
untrusted, and the untrusted check forgets it unless in dry-run; a pod is
reported terminating when the grace window is under six minutes; the split
check fails with an error. -/
def sampleChecks : Checks Unit Unit Unit Unit Unit String (List String) where
  FixFailedNodes := fun _ _ _ _ s => (⟨false, none⟩, s)
  FixUntrustedNodes := fun _ _ _ _ d s =>
    (⟨true, none⟩, if d then s else s ++ ["forget node-1"])
  FixTerminatingPods := fun _ _ w d s =>
    if w < 6 * time.Minute then (⟨true, none⟩, if d then s else s ++ ["delete pod-2"])
    else (⟨false, none⟩, s)
  FixClusterSplit := fun _ _ _ _ s => (⟨false, some "split"⟩, s)

/-- A second instance in which nothing is failed or untrusted, so the run
reaches the later checks; the terminating check reports nothing either and
the split check fails with an error after a partial action. -/
def quietChecks : Checks Unit Unit Unit Unit Unit String (List String) where
  FixFailedNodes := fun _ _ _ _ s => (⟨false, none⟩, s)
  FixUntrustedNodes := fun _ _ _ _ _ s => (⟨false, none⟩, s)
  FixTerminatingPods := fun _ _ _ _ s => (⟨false, none⟩, s)
  FixClusterSplit := fun _ _ _ d s =>
    (⟨true, some "meet failed"⟩, if d then s else s ++ ["meet"])

end sanitycheck

/-! ## `pkg/redis/cluster.go` -/

namespace redis

/-- The pod hosting a node; `cluster.go` reads its `Name` only. -/
structure Pod where
  Name : String
deriving DecidableEq, Repr

/-- The fields of `Node` that `cluster.go` reads. `Pod` is a pointer in the
source, and `none` stands for nil. -/
structure Node where
  ID : String
  IP : String
  Pod : Option Pod
deriving DecidableEq, Repr

/-- The address of a `Node`: a non-nil `*Node`. -/
abbrev NodePtr := Nat

/-- The nodes in memory, by address. -/
abbrev Heap := NodePtr → Node

/-- Go `ClusterActionsInfo`. -/
structure ClusterActionsInfo where
  NbslotsToMigrate : Int
deriving DecidableEq, Repr

/-- The entries of a non-nil Go `map[string]*Node`: one address per key. -/
abbrev NodeTable := AList (fun _ : String => NodePtr)

/-- Go `Cluster`. `Nodes` is the Go `map[string]*Node`: `none` is the nil
map (the zero value of the field), `some t` a map made by `make` with the
entries `t`. `Status` and `NodesPlacement`, which no function below touches,
are left out. -/
structure Cluster where
  Name : String
  Namespace : String
  Nodes : Option NodeTable
  ActionsInfo : ClusterActionsInfo

/-- Go `n, ok := c.Nodes[id]`: the address stored under `id`; a nil map reads
as an empty one. -/
def Cluster.lookup (c : Cluster) (id : String) : Option NodePtr :=
  match c.Nodes with
  | none => none
  | some t => t.lookup id

/-- The keys of `c.Nodes`; a nil map has none. -/
def Cluster.keys (c : Cluster) : List String :=
  match c.Nodes with
  | none => []
  | some t => t.keys

/-- Go `NewCluster`: the given names, `make(map[string]*Node)`, zero values
elsewhere. -/
def NewCluster (name ns : String) : Cluster :=
  { Name := name, Namespace := ns, Nodes := some ∅, ActionsInfo := ⟨0⟩ }

/-- Go `(c *Cluster) AddNode(node)`. When the table holds a node `n` under
`node.ID`, `n.Clear()` runs first; `Clear` is a method of `Node` declared
outside `cluster.go` and is a parameter (the address it is called on, the
memory before, the memory after). Then `c.Nodes[node.ID] = node`, where
`node.ID` is read from the memory left by `Clear`; on a nil map this store
panics (assignment to entry in nil map), which is the result `none`.
Otherwise the result is the cluster and the memory after the call. -/
def AddNode (Clear : NodePtr → Heap → Heap) (c : Cluster) (h : Heap) (node : NodePtr) :
    Option (Cluster × Heap) :=
  let h1 :=
    match c.lookup (h node).ID with
    | some n => Clear n h
    | none => h
  match c.Nodes with
  | none => none
  | some t => some ({ c with Nodes := some (t.insert (h1 node).ID node) }, h1)

/-- Go `(c *Cluster) GetNodeByID(id)`. `nodeNotFoundedError` is a variable of
the package declared outside `cluster.go`; it is a parameter. -/
def GetNodeByID {ε : Type} (nodeNotFoundedError : ε) (c : Cluster) (id : String) :
    Option NodePtr × Option ε :=
  match c.lookup id with
  | some n => (some n, none)
  | none => (none, some nodeNotFoundedError)

/-- Go `(c *Cluster) GetNodeByFunc(f)`: `for _, n := range c.Nodes` returns
the first visited node on which `f` holds. Go leaves the order of a `range`
over a map unspecified; the last argument is the order in which this run
visits the keys of `c.Nodes`. -/
def GetNodeByFunc {ε : Type} (nodeNotFoundedError : ε) (c : Cluster) (f : NodePtr → Bool) :
    List String → Option NodePtr × Option ε
  | [] => (none, some nodeNotFoundedError)
  | id :: rest =>
    match c.lookup id with
    | some n => if f n then (some n, none) else GetNodeByFunc nodeNotFoundedError c f rest
    | none => GetNodeByFunc nodeNotFoundedError c f rest

/-- Go `(c *Cluster) GetNodeByIP(ip)`. -/
def GetNodeByIP {ε : Type} (nodeNotFoundedError : ε) (h : Heap) (c : Cluster) (ip : String)
    (order : List String) : Option NodePtr × Option ε :=
  let findFunc : NodePtr → Bool := fun node => (h node).IP == ip
  GetNodeByFunc nodeNotFoundedError c findFunc order

/-- Go `(c *Cluster) GetNodeByPodName(name)`. -/
def GetNodeByPodName {ε : Type} (nodeNotFoundedError : ε) (h : Heap) (c : Cluster)
    (name : String) (order : List String) : Option NodePtr × Option ε :=
  let findFunc : NodePtr → Bool := fun node =>
    match (h node).Pod with
    | none => false
    | some pod => if pod.Name = name then true else false
  GetNodeByFunc nodeNotFoundedError c findFunc order

/-- The node at address `n` is a value of the table `c.Nodes`. -/
def Cluster.stores (c : Cluster) (n : NodePtr) : Prop :=
  ∃ id, c.lookup id = some n

/-- A memory with nodes at every address: the node at 1 has identifier id-a,
the node at 2 has id-b and no pod, every other address holds a node with
identifier id-c. -/
def sampleHeap : Heap := fun p =>
  if p = 1 then ⟨"id-a", "10.0.0.1", some ⟨"pod-0"⟩⟩
  else if p = 2 then ⟨"id-b", "10.0.0.2", none⟩
  else ⟨"id-c", "10.0.0.3", some ⟨"pod-2"⟩⟩

/-- A cluster holding the nodes at 1, 2, 3 of `sampleHeap` under their
identifiers. -/
def sampleCluster : Cluster :=
  { Name := "c", Namespace := "ns",
    Nodes := some ((∅ : NodeTable).insert "id-a" 1 |>.insert "id-b" 2 |>.insert "id-c" 3),
    ActionsInfo := ⟨0⟩ }

/-- The zero value of `Cluster`: empty names and a nil `Nodes` map. -/
def zeroCluster : Cluster :=
  { Name := "", Namespace := "", Nodes := none, ActionsInfo := ⟨0⟩ }

/-- A `Clear` for the examples: it blanks the IP of the node it is called on
and drops its pod, and touches nothing else. -/
def sampleClear : NodePtr → Heap → Heap := fun n h =>
  Function.update h n { h n with IP := "", Pod := none }

/-- A `Clear` that renames the node it is called on and every node at a
higher address; it shows what the assumption on `Clear` is for. -/
def renamingClear : NodePtr → Heap → Heap := fun n h p =>
  if n ≤ p then { h p with ID := "renamed" } else h p

end redis

/-! ## Go `strconv` and `strings` functions used by `service_control.go` -/

namespace strconv

/-- Go `strconv.Itoa` on the loop counter: the decimal form of the number. -/
def Itoa (i : Int) : String := toString i

/-- Go `strconv.ParseInt(s, 10, 32)`: `some v` for the value returned with a
nil error, `none` when the error is non-nil. The text is an optional sign
followed by one or more decimal digits, and the value lies in the int32
range. -/
def ParseInt (s : String) : Option Int :=
  match s.toList with
  | [] => none
  | c :: rest =>
    let neg : Bool := c = '-'
    let ds : List Char := if c = '+' ∨ c = '-' then rest else c :: rest
    if ds = [] ∨ ds.all Char.isDigit = false then none
    else
      let un : Nat := ds.foldl (fun acc d => acc * 10 + (d.toNat - 48)) 0
      if neg = false ∧ 2 ^ 31 ≤ un then none
      else if neg = true ∧ 2 ^ 31 < un then none
      else some (if neg then - (un : Int) else (un : Int))

end strconv

namespace strings

/-- Go `strings.EqualFold`, with the case folding of the ASCII letters. The
source calls it with the constant "external" as second argument, whose
letters have no other case variants, so that on those calls this is the Go
function. -/
def EqualFold (s t : String) : Bool :=
  s.toList.map Char.toLower == t.toList.map Char.toLower

end strings

/-! ## `pkg/controller/service_control.go` -/

namespace controller

/-- Go conversion to `int32` and the wrap-around of int32 arithmetic. -/
def int32 (x : Int) : Int := (x + 2 ^ 31) % 2 ^ 32 - 2 ^ 31

/-- Go `labels.Set`, a `map[string]string`; the annotations have the same type. -/
abbrev LabelSet := List (String × String)

/-- The fields of `kapiv1.ServicePort` the source sets; `NodePort` is 0 when
the source leaves it out. -/
structure ServicePort where
  Port : Int
  Name : String
  NodePort : Int
deriving DecidableEq, Repr

/-- The fields of `kapiv1.Service` the source sets. `O` is the type of an
owner reference; `ClusterIP` is the empty string when the source leaves it
out. -/
structure Service (O : Type) where
  Labels : LabelSet
  Annotations : LabelSet
  Name : String
  OwnerReferences : List O
  ClusterIP : String
  Ports : List ServicePort
  Selector : LabelSet
deriving DecidableEq, Repr

/-- The fields of the spec of a `rapi.RedisCluster` read by the source. The
two counts are `*int32` in Go; `none` is nil. -/
structure RedisClusterSpec where
  ServiceName : String
  ServiceType : String
  ServiceNodePortStart : String
  NumberOfMaster : Option Int
  ReplicationFactor : Option Int
deriving DecidableEq, Repr

/-- The fields of `rapi.RedisCluster` read by the source. -/
structure RedisCluster where
  Name : String
  Namespace : String
  Spec : RedisClusterSpec
deriving DecidableEq, Repr

/-- Modelled from the spec: the constant `rapi.ServiceTypeExternal`, declared
outside the sources at hand; the exposure mode it names is written
"external". -/
def ServiceTypeExternal : String := "external"

/-- The functions of the package `pod` called by the source; they are
declared outside the sources at hand and are parameters. A Go result
`(value, err)` of which the value is used only under `err == nil` is an
`Except`. -/
structure PodFuncs (O ε : Type) where
  GetLabelsSet : RedisCluster → Except ε LabelSet
  GetAnnotationsSet : RedisCluster → Except ε LabelSet
  GetPodLabelsSet : RedisCluster → Int → Except ε LabelSet
  BuildOwnerReference : RedisCluster → O

/-- The two calls of `s.KubeClient.CoreV1().Services(namespace)` made by the
source, on a client whose state is `κ`. `Create` gives the error of the call
(the returned service is discarded by the source); the result of `Delete` is
discarded by the source. -/
structure KubeClient (O ε κ : Type) where
  Create : String → Service O → κ → Option ε × κ
  Delete : String → String → κ → κ

/-- A request sent to the client. -/
inductive Request (O : Type) where
  | Create (ns : String) (svc : Service O)
  | Delete (ns : String) (name : String)
deriving DecidableEq, Repr

/-- The value a Go `panic` carries: the slice given to `panic(serviceList)`,
or a run-time error (nil pointer dereference). -/
inductive PanicValue (O : Type) where
  | services (l : List (Service O))
  | runtime
deriving DecidableEq, Repr

/-- How the body of a function ends: by a `return` or by a panic. -/
inductive Flow (O ε : Type) where
  | returned (services : List (Service O)) (err : Option ε)
  | panicked (v : PanicValue O)
deriving DecidableEq, Repr

/-- What one call of `CreateRedisClusterService` yields: the returned slice
(`[]` is nil), the returned error, the state of the client, and the requests
sent to the client, in order. -/
structure CreateRun (O ε κ : Type) where
  services : List (Service O)
  err : Option ε
  state : κ
  requests : List (Request O)
deriving DecidableEq, Repr

/-- Go `getServiceName`. -/
def getServiceName (redisCluster : RedisCluster) : String :=
  if redisCluster.Spec.ServiceName ≠ "" then redisCluster.Spec.ServiceName
  else redisCluster.Name

/-- Go `getServiceType`: the default is the name of the cluster, as in the source. -/
def getServiceType (redisCluster : RedisCluster) : String :=
  if redisCluster.Spec.ServiceType ≠ "" then redisCluster.Spec.ServiceType
  else redisCluster.Name

/-- Go `getNumberOfMaster`: the dereference of the pointer, `none` on nil. -/
def getNumberOfMaster (redisCluster : RedisCluster) : Option Int :=
  redisCluster.Spec.NumberOfMaster

/-- Go `getReplicationFactor`: the dereference of the pointer, `none` on nil. -/
def getReplicationFactor (redisCluster : RedisCluster) : Option Int :=
  redisCluster.Spec.ReplicationFactor

/-- Go `getServiceNodePortStart`. -/
def getServiceNodePortStart (redisCluster : RedisCluster) : String :=
  if redisCluster.Spec.ServiceNodePortStart ≠ "" then redisCluster.Spec.ServiceNodePortStart
  else ""

variable {O ε κ : Type}

/-- The headless service `newService` built at lines 102-114. -/
def newService (pods : PodFuncs O ε) (redisCluster : RedisCluster) (serviceName : String)
    (desiredlabels desiredAnnotations : LabelSet) : Service O :=
  { Labels := desiredlabels, Annotations := desiredAnnotations, Name := serviceName,
    OwnerReferences := [pods.BuildOwnerReference redisCluster],
    ClusterIP := "None", Ports := [{ Port := 6379, Name := "redis", NodePort := 0 }],
    Selector := desiredlabels }

/-- The service `newPodService` built at lines 128-139 for the pod `i`. -/
def newPodService (pods : PodFuncs O ε) (redisCluster : RedisCluster) (serviceName : String)
    (desiredPodlabels desiredAnnotations : LabelSet) (nodePortStart i : Int) : Service O :=
  { Labels := desiredPodlabels, Annotations := desiredAnnotations,
    Name := serviceName ++ "-external-" ++ strconv.Itoa i,
    OwnerReferences := [pods.BuildOwnerReference redisCluster],
    ClusterIP := "",
    Ports := [{ Port := 6379, Name := "redis",
                NodePort := int32 (int32 nodePortStart + int32 i) }],
    Selector := desiredPodlabels }

/-- The `for` loop of lines 122-147, with `remaining` iterations left and the
counter at `i`. The first component is `none` when the loop runs to its end,
and the way the function ends when the loop body returns or panics; the
others are `serviceList`, the state of the client and the requests sent. As
in the source, the service handed to `Create` at line 141 is `newService`. -/
def createPodServices (kube : KubeClient O ε κ) (pods : PodFuncs O ε)
    (redisCluster : RedisCluster) (serviceName : String) (desiredAnnotations : LabelSet)
    (headless : Service O) (serviceNodePortStart : String) :
    Nat → Int → List (Service O) → κ → List (Request O) →
      Option (Flow O ε) × List (Service O) × κ × List (Request O)
  | 0, _, serviceList, s, rq => (none, serviceList, s, rq)
  | remaining + 1, i, serviceList, s, rq =>
    match strconv.ParseInt serviceNodePortStart with
    | some nodePortStart =>
      match pods.GetPodLabelsSet redisCluster (int32 i) with
      | .error err => (some (.returned [] (some err)), serviceList, s, rq)
      | .ok desiredPodlabels =>
        let podService := newPodService pods redisCluster serviceName desiredPodlabels
          desiredAnnotations nodePortStart i
        let created := kube.Create redisCluster.Namespace headless s
        let rq1 := rq ++ [Request.Create redisCluster.Namespace headless]
        match created.1 with
        | some _ => (some (.panicked (.services serviceList)), serviceList, created.2, rq1)
        | none =>
          createPodServices kube pods redisCluster serviceName desiredAnnotations headless
            serviceNodePortStart remaining (i + 1) (serviceList ++ [podService]) created.2 rq1
    | none =>
      createPodServices kube pods redisCluster serviceName desiredAnnotations headless
        serviceNodePortStart remaining (i + 1) serviceList s rq

/-- Lines 149-155, after the loop: when the loop has ended the function
(first component `some`), nothing more happens; otherwise `newService` is
handed to `Create`, a failure panics with `serviceList`, and a success appends
`newService` and returns `serviceList, err`, where `err` is the nil error of
line 96. -/
def createHeadless (kube : KubeClient O ε κ) (redisCluster : RedisCluster)
    (headless : Service O) :
    Option (Flow O ε) × List (Service O) × κ × List (Request O) →
      Flow O ε × κ × List (Request O)
  | (some flow, _, s1, rq) => (flow, s1, rq)
  | (none, serviceList, s1, rq) =>
    let created := kube.Create redisCluster.Namespace headless s1
    let rq1 := rq ++ [Request.Create redisCluster.Namespace headless]
    match created.1 with
    | some _ => (.panicked (.services serviceList), created.2, rq1)
    | none => (.returned (serviceList ++ [headless]) none, created.2, rq1)

/-- The body of Go `CreateRedisClusterService` (lines 90-155), without the
deferred function: how it ends, the state of the client and the requests. -/
def createBody (kube : KubeClient O ε κ) (pods : PodFuncs O ε) (redisCluster : RedisCluster)
    (s : κ) : Flow O ε × κ × List (Request O) :=
  let serviceName := getServiceName redisCluster
  match pods.GetLabelsSet redisCluster with
  | .error err => (.returned [] (some err), s, [])
  | .ok desiredlabels =>
    match pods.GetAnnotationsSet redisCluster with
    | .error err => (.returned [] (some err), s, [])
    | .ok desiredAnnotations =>
      let headless := newService pods redisCluster serviceName desiredlabels desiredAnnotations
      match getNumberOfMaster redisCluster, getReplicationFactor redisCluster with
      | none, _ => (.panicked .runtime, s, [])
      | some _, none => (.panicked .runtime, s, [])
      | some numberOfMaster, some replicationFactor =>
        let serviceNodePortStart := getServiceNodePortStart redisCluster
        createHeadless kube redisCluster headless
          (if serviceNodePortStart ≠ "" ∧
              strings.EqualFold (getServiceType redisCluster) ServiceTypeExternal = true then
            createPodServices kube pods redisCluster serviceName desiredAnnotations headless
              serviceNodePortStart (int32 (numberOfMaster * replicationFactor)).toNat 0 [] s []
          else (none, [], s, []))

/-- Go `(s *ServicesControl) CreateRedisClusterService(redisCluster)`. The
body runs; when it panics the deferred function recovers: for a panic value
that is a slice of services it sends a `Delete` for each of them, and the
function then returns to its caller the zero values `nil, nil` of its
unnamed results. -/
def CreateRedisClusterService (kube : KubeClient O ε κ) (pods : PodFuncs O ε)
    (redisCluster : RedisCluster) (s : κ) : CreateRun O ε κ :=
  match createBody kube pods redisCluster s with
  | (.returned services err, s1, rq) =>
    { services := services, err := err, state := s1, requests := rq }
  | (.panicked (.services createdServiceList), s1, rq) =>
    { services := [], err := none,
      state := createdServiceList.foldl
        (fun st createdService => kube.Delete redisCluster.Namespace createdService.Name st) s1,
      requests := rq ++ createdServiceList.map
        (fun createdService => Request.Delete redisCluster.Namespace createdService.Name) }
  | (.panicked .runtime, s1, rq) =>
    { services := [], err := none, state := s1, requests := rq }

/-- The create requests among the requests, in order. -/
def createRequests (rq : List (Request O)) : List (Service O) :=
  rq.filterMap (fun r => match r with
    | .Create _ svc => some svc
    | .Delete _ _ => none)

/-- The requests that the documentation of the function calls for on an
external cluster whose node-port start parses as `p`: one create for each
per-pod service `i` below `count`, named `serviceName-external-i` with
NodePort `p + i`, and one create for the headless service `serviceName`. The
result lists the `(name, NodePort of the first port)` of each request. -/
def expectedCreates (serviceName : String) (p : Int) (count : Nat) : List (String × Int) :=
  (List.range count).map
      (fun i => (serviceName ++ "-external-" ++ strconv.Itoa i, p + (i : Int))) ++
    [(serviceName, 0)]

/-- The `(name, NodePort of the first port)` of a service. -/
def Service.nameAndNodePort (svc : Service O) : String × Int :=
  (svc.Name, (svc.Ports.head?.map ServicePort.NodePort).getD 0)

/-- A client for the examples: its state counts the create calls received,
and the create call number `failAt` (from 0) fails. -/
def countingClient (failAt : Nat) : KubeClient Unit String Nat where
  Create := fun _ _ n => (if n = failAt then some "create failed" else none, n + 1)
  Delete := fun _ _ n => n

/-- Pod functions for the examples: they never fail. -/
def samplePods : PodFuncs Unit String where
  GetLabelsSet := fun rc => .ok [("cluster", rc.Name)]
  GetAnnotationsSet := fun _ => .ok []
  GetPodLabelsSet := fun rc i => .ok [("cluster", rc.Name), ("pod-no", strconv.Itoa i)]
  BuildOwnerReference := fun _ => ()

/-- An external cluster with one master, replication factor 1 and node ports
starting at 30000. -/
def externalCluster : RedisCluster :=
  { Name := "rc", Namespace := "default",
    Spec := { ServiceName := "svc", ServiceType := "External",
              ServiceNodePortStart := "30000",
              NumberOfMaster := some 1, ReplicationFactor := some 1 } }

/-- A cluster that is not external: only the headless service is created. -/
def internalCluster : RedisCluster :=
  { Name := "rc", Namespace := "default",
    Spec := { ServiceName := "svc", ServiceType := "", ServiceNodePortStart := "",
              NumberOfMaster := some 3, ReplicationFactor := some 1 } }

end controller

/-! # Theorems -/

namespace sanitycheck

variable {A C P R I ε σ : Type}

/-- The shape of a run: it stops at the first check whose pair is decisive,
returns that pair, and has called exactly the checks up to that one; with no
decisive pair it has called all four and returns the fourth pair. -/
theorem RunSanityChecks_shape (k : Checks A C P R I ε σ) (admin : A) (config : C)
    (podControl : P) (cluster : R) (infos : I) (dryRun : Bool) (s : σ) :
    let r1 := k.FixFailedNodes admin cluster infos dryRun s
    let r2 := k.FixUntrustedNodes admin podControl cluster infos dryRun r1.2
    let r3 := k.FixTerminatingPods cluster podControl (5 * time.Minute) dryRun r2.2
    let r4 := k.FixClusterSplit admin config infos dryRun r3.2
    let c1 : Call A C P R I := .FixFailedNodes admin cluster infos dryRun
    let c2 : Call A C P R I := .FixUntrustedNodes admin podControl cluster infos dryRun
    let c3 : Call A C P R I := .FixTerminatingPods cluster podControl (5 * time.Minute) dryRun
    let c4 : Call A C P R I := .FixClusterSplit admin config infos dryRun
    let run := RunSanityChecks k admin config podControl cluster infos dryRun s
    (r1.1.decisive = true ∧ run = ⟨r1.1.actionDone, r1.1.err, r1.2, [(c1, r1.1)]⟩) ∨
    (r1.1 = ⟨false, none⟩ ∧ r2.1.decisive = true ∧
      run = ⟨r2.1.actionDone, r2.1.err, r2.2, [(c1, r1.1), (c2, r2.1)]⟩) ∨
    (r1.1 = ⟨false, none⟩ ∧ r2.1 = ⟨false, none⟩ ∧ r3.1.decisive = true ∧
      run = ⟨r3.1.actionDone, r3.1.err, r3.2, [(c1, r1.1), (c2, r2.1), (c3, r3.1)]⟩) ∨
    (r1.1 = ⟨false, none⟩ ∧ r2.1 = ⟨false, none⟩ ∧ r3.1 = ⟨false, none⟩ ∧
      run = ⟨r4.1.actionDone, r4.1.err, r4.2,
        [(c1, r1.1), (c2, r2.1), (c3, r3.1), (c4, r4.1)]⟩) := by
  intro r1 r2 r3 r4 c1 c2 c3 c4 run
  simp only [run, RunSanityChecks]
  rcases h1 : r1 with ⟨⟨a1, e1⟩, s1⟩
  rcases h2 : r2 with ⟨⟨a2, e2⟩, s2⟩
  rcases h3 : r3 with ⟨⟨a3, e3⟩, s3⟩
  rcases h4 : r4 with ⟨⟨a4, e4⟩, s4⟩
  simp only [r1] at h1
  simp only [r2, r1, h1] at h2
  simp only [r3, r2, r1, h1, h2] at h3
  simp only [r4, r3, r2, r1, h1, h2, h3] at h4
  simp only [h1]
  cases a1 <;> cases e1 <;> simp [Outcome.decisive, c1]
  simp only [h2]
  cases a2 <;> cases e2 <;> simp [Outcome.decisive, c2]
  simp only [h3]
  cases a3 <;> cases e3 <;> simp [Outcome.decisive, c3]
  simp only [h4]
  cases a4 <;> cases e4 <;> simp [Outcome.decisive, c4]

/-- A decisive head is the first decisive pair. -/
theorem firstDecisive_cons_of_decisive (o : Outcome ε) (l : List (Outcome ε))
    (h : o.decisive = true) : firstDecisive (o :: l) = o := by
  simp [firstDecisive, List.find?, h]

/-- A head `(false, nil)` is skipped. -/
theorem firstDecisive_cons_quiet (l : List (Outcome ε)) :
    firstDecisive ((⟨false, none⟩ : Outcome ε) :: l) = firstDecisive l := by
  simp [firstDecisive, List.find?, Outcome.decisive]

/-- C1: the pair returned by `RunSanityChecks` is the pair of the first
check, in the order FixFailedNodes, FixUntrustedNodes, FixTerminatingPods,
FixClusterSplit, whose pair is not `(false, nil)`, and `(false, nil)` when all
four pairs are `(false, nil)`; and it returns `actionDone = true` exactly
when one of the checks it called reported `actionDone = true`. -/
theorem RunSanityChecks_returns_first_decisive (k : Checks A C P R I ε σ) (admin : A)
    (config : C) (podControl : P) (cluster : R) (infos : I) (dryRun : Bool) (s : σ) :
    (RunSanityChecks k admin config podControl cluster infos dryRun s).result =
      firstDecisive (outcomesInOrder k admin config podControl cluster infos dryRun s) ∧
    ((RunSanityChecks k admin config podControl cluster infos dryRun s).actionDone = true ↔
      ∃ c ∈ (RunSanityChecks k admin config podControl cluster infos dryRun s).calls,
        c.2.actionDone = true) := by
  have h := RunSanityChecks_shape k admin config podControl cluster infos dryRun s
  simp only at h
  rcases h with ⟨h1, hr⟩ | ⟨h1, h2, hr⟩ | ⟨h1, h2, h3, hr⟩ | ⟨h1, h2, h3, hr⟩
  · rw [hr]
    simp only [outcomesInOrder, firstDecisive_cons_of_decisive _ _ h1]
    simp [Run.result]
  · rw [hr]
    simp only [outcomesInOrder, h1, firstDecisive_cons_quiet,
      firstDecisive_cons_of_decisive _ _ h2]
    simp [Run.result]
  · rw [hr]
    simp only [outcomesInOrder, h1, h2, firstDecisive_cons_quiet,
      firstDecisive_cons_of_decisive _ _ h3]
    simp [Run.result]
  · rw [hr]
    simp only [outcomesInOrder, h1, h2, h3, firstDecisive_cons_quiet]
    generalize (k.FixClusterSplit admin config infos dryRun
      (k.FixTerminatingPods cluster podControl (5 * time.Minute) dryRun
        (k.FixUntrustedNodes admin podControl cluster infos dryRun
          (k.FixFailedNodes admin cluster infos dryRun s).2).2).2).1 = o4
    rcases o4 with ⟨a4, e4⟩
    cases a4 <;> cases e4 <;>
      simp [Run.result, firstDecisive, List.find?, Outcome.decisive]

/-- The record of calls is faithful to the checks and to the state: the
recorded pairs are the ones the checks return when the recorded calls are
performed one after the other from the initial state, the final state is the
state these calls leave (no other call touches it), the recorded calls are the
first calls, with the arguments of the driver, of the list of the four, and
there is at least one. -/
theorem RunSanityChecks_anchored (k : Checks A C P R I ε σ) (admin : A) (config : C)
    (podControl : P) (cluster : R) (infos : I) (dryRun : Bool) (s : σ) :
    (RunSanityChecks k admin config podControl cluster infos dryRun s).calls =
      performAll k ((RunSanityChecks k admin config podControl cluster infos dryRun s).calls.map
        Prod.fst) s ∧
    (RunSanityChecks k admin config podControl cluster infos dryRun s).state =
      replay k ((RunSanityChecks k admin config podControl cluster infos dryRun s).calls.map
        Prod.fst) s ∧
    (RunSanityChecks k admin config podControl cluster infos dryRun s).calls.map Prod.fst <+:
      [Call.FixFailedNodes admin cluster infos dryRun,
       Call.FixUntrustedNodes admin podControl cluster infos dryRun,
       Call.FixTerminatingPods cluster podControl (5 * time.Minute) dryRun,
       Call.FixClusterSplit admin config infos dryRun] ∧
    (RunSanityChecks k admin config podControl cluster infos dryRun s).calls ≠ [] := by
  have h := RunSanityChecks_shape k admin config podControl cluster infos dryRun s
  simp only at h
  rcases h with ⟨_, hr⟩ | ⟨_, _, hr⟩ | ⟨_, _, _, hr⟩ | ⟨_, _, _, hr⟩
  · rw [hr]
    exact ⟨rfl, rfl, ⟨[_, _, _], rfl⟩, by simp⟩
  · rw [hr]
    exact ⟨rfl, rfl, ⟨[_, _], rfl⟩, by simp⟩
  · rw [hr]
    exact ⟨rfl, rfl, ⟨[_], rfl⟩, by simp⟩
  · rw [hr]
    exact ⟨rfl, rfl, ⟨[], rfl⟩, by simp⟩

/-- The run in terms of the pairs the checks return: which checks are called,
what is returned and which state is left, case by case. -/
theorem RunSanityChecks_by_cases (k : Checks A C P R I ε σ) (admin : A) (config : C)
    (podControl : P) (cluster : R) (infos : I) (dryRun : Bool) (s : σ) :
    let r1 := k.FixFailedNodes admin cluster infos dryRun s
    let r2 := k.FixUntrustedNodes admin podControl cluster infos dryRun r1.2
    let r3 := k.FixTerminatingPods cluster podControl 300000000000 dryRun r2.2
    let r4 := k.FixClusterSplit admin config infos dryRun r3.2
    let c1 : Call A C P R I := .FixFailedNodes admin cluster infos dryRun
    let c2 : Call A C P R I := .FixUntrustedNodes admin podControl cluster infos dryRun
    let c3 : Call A C P R I := .FixTerminatingPods cluster podControl 300000000000 dryRun
    let c4 : Call A C P R I := .FixClusterSplit admin config infos dryRun
    let run := RunSanityChecks k admin config podControl cluster infos dryRun s
    (r1.1.decisive = true → run = ⟨r1.1.actionDone, r1.1.err, r1.2, [(c1, r1.1)]⟩) ∧
    (r1.1 = ⟨false, none⟩ → r2.1.decisive = true →
      run = ⟨r2.1.actionDone, r2.1.err, r2.2, [(c1, r1.1), (c2, r2.1)]⟩) ∧
    (r1.1 = ⟨false, none⟩ → r2.1 = ⟨false, none⟩ → r3.1.decisive = true →
      run = ⟨r3.1.actionDone, r3.1.err, r3.2, [(c1, r1.1), (c2, r2.1), (c3, r3.1)]⟩) ∧
    (r1.1 = ⟨false, none⟩ → r2.1 = ⟨false, none⟩ → r3.1 = ⟨false, none⟩ →
      run = ⟨r4.1.actionDone, r4.1.err, r4.2,
        [(c1, r1.1), (c2, r2.1), (c3, r3.1), (c4, r4.1)]⟩) := by
  have hm : 5 * time.Minute = 300000000000 := by decide
  have h := RunSanityChecks_shape k admin config podControl cluster infos dryRun s
  simp only [hm] at h
  intro r1 r2 r3 r4 c1 c2 c3 c4 run
  have hq : ∀ o : Outcome ε, o = ⟨false, none⟩ → o.decisive = true → False := by
    intro o h1 h2
    rw [h1] at h2
    simp [Outcome.decisive] at h2
  rcases h with ⟨h1, hr⟩ | ⟨h1, h2, hr⟩ | ⟨h1, h2, h3, hr⟩ | ⟨h1, h2, h3, hr⟩
  · exact ⟨fun _ => hr, fun q1 => (hq _ q1 h1).elim, fun q1 => (hq _ q1 h1).elim,
      fun q1 => (hq _ q1 h1).elim⟩
  · exact ⟨fun d1 => (hq _ h1 d1).elim, fun _ _ => hr, fun _ q2 => (hq _ q2 h2).elim,
      fun _ q2 => (hq _ q2 h2).elim⟩
  · exact ⟨fun d1 => (hq _ h1 d1).elim, fun _ d2 => (hq _ h2 d2).elim, fun _ _ _ => hr,
      fun _ _ q3 => (hq _ q3 h3).elim⟩
  · exact ⟨fun d1 => (hq _ h1 d1).elim, fun _ d2 => (hq _ h2 d2).elim,
      fun _ _ d3 => (hq _ h3 d3).elim, fun _ _ _ => hr⟩

/-- The record of calls of a run: the names form a non-empty prefix of the
order of the checks without repetition, every recorded pair but the last has
`actionDone = false`, and a record of FixClusterSplit comes after three
records `(false, nil)`. -/
theorem RunSanityChecks_record_prefix (k : Checks A C P R I ε σ) (admin : A)
    (config : C) (podControl : P) (cluster : R) (infos : I) (dryRun : Bool) (s : σ) :
    let run := RunSanityChecks k admin config podControl cluster infos dryRun s
    let names := run.calls.map (fun c => c.1.name)
    names <+: checkOrder ∧ names ≠ [] ∧ names.Nodup ∧
    (∀ c ∈ run.calls.dropLast, c.2.actionDone = false) ∧
    (run.calls.filter (fun c => c.2.actionDone)).length ≤ 1 ∧
    (∀ c ∈ run.calls, c.2.actionDone = true → run.calls.getLast? = some c) ∧
    (CheckName.FixClusterSplit ∈ names →
      run.calls.dropLast.map (fun c => (c.1.name, c.2)) =
        [(.FixFailedNodes, ⟨false, none⟩), (.FixUntrustedNodes, ⟨false, none⟩),
         (.FixTerminatingPods, ⟨false, none⟩)]) := by
  have h := RunSanityChecks_shape k admin config podControl cluster infos dryRun s
  simp only at h
  intro run names
  simp only [names, run]
  rcases h with ⟨h1, hr⟩ | ⟨h1, h2, hr⟩ | ⟨h1, h2, h3, hr⟩ | ⟨h1, h2, h3, hr⟩
  · rw [hr]
    refine ⟨⟨[.FixUntrustedNodes, .FixTerminatingPods, .FixClusterSplit], rfl⟩, ?_⟩
    simp [Call.name]
    exact List.length_filter_le _ _
  · rw [hr]
    refine ⟨⟨[.FixTerminatingPods, .FixClusterSplit], rfl⟩, ?_⟩
    simp [Call.name, h1, List.filter]
    split <;> simp
  · rw [hr]
    refine ⟨⟨[.FixClusterSplit], rfl⟩, ?_⟩
    simp [Call.name, h1, h2, List.filter]
    split <;> simp
  · rw [hr]
    refine ⟨⟨[], rfl⟩, ?_⟩
    simp [Call.name, h1, h2, h3, List.filter]
    split <;> simp

/-- The record of calls of a run and the returned error: a recorded pair
with an error is the returned pair and the last record, and a returned error
is in the record. -/
theorem RunSanityChecks_record_errors (k : Checks A C P R I ε σ) (admin : A)
    (config : C) (podControl : P) (cluster : R) (infos : I) (dryRun : Bool) (s : σ) :
    let run := RunSanityChecks k admin config podControl cluster infos dryRun s
    (∀ c ∈ run.calls, ∀ e, c.2.err = some e →
      run.err = some e ∧ run.actionDone = c.2.actionDone ∧ run.calls.getLast? = some c ∧
      ∀ d ∈ run.calls, d.1.name.rank ≤ c.1.name.rank) ∧
    (∀ e, run.err = some e → ∃ c ∈ run.calls, c.2.err = some e) := by
  have h := RunSanityChecks_shape k admin config podControl cluster infos dryRun s
  simp only at h
  intro run
  simp only [run]
  rcases h with ⟨_, hr⟩ | ⟨h1, _, hr⟩ | ⟨h1, h2, _, hr⟩ | ⟨h1, h2, h3, hr⟩
  · rw [hr]
    simp [Call.name, CheckName.rank]
  · rw [hr]
    simp [Call.name, CheckName.rank, h1]
  · rw [hr]
    simp [Call.name, CheckName.rank, h1, h2]
  · rw [hr]
    simp [Call.name, CheckName.rank, h1, h2, h3]

/-- C4: `RunSanityChecks` hands its own `dryRun` argument, and its own
other arguments, to every check it calls, and the state it leaves is the one
obtained by performing those calls and nothing else; hence, when
no check issues a mutating call under `dryRun = true`, a run with
`dryRun = true` issues none. -/
theorem RunSanityChecks_dryRun_no_mutation {μ : Type} (k : Checks A C P R I ε σ)
    (mutations : σ → μ) (hk : k.dryRunSilent mutations) (admin : A) (config : C)
    (podControl : P) (cluster : R) (infos : I) (s : σ) :
    (∀ dryRun,
      (∀ c ∈ (RunSanityChecks k admin config podControl cluster infos dryRun s).calls,
        c.1.dryRun = dryRun ∧
        c.1 ∈ [Call.FixFailedNodes admin cluster infos dryRun,
          Call.FixUntrustedNodes admin podControl cluster infos dryRun,
          Call.FixTerminatingPods cluster podControl (5 * time.Minute) dryRun,
          Call.FixClusterSplit admin config infos dryRun]) ∧
      replay k ((RunSanityChecks k admin config podControl cluster infos dryRun s).calls.map
        Prod.fst) s = (RunSanityChecks k admin config podControl cluster infos dryRun s).state) ∧
    mutations (RunSanityChecks k admin config podControl cluster infos true s).state =
      mutations s := by
  obtain ⟨k1, k2, k3, k4⟩ := hk
  refine ⟨fun dryRun => ?_, ?_⟩
  · have h := RunSanityChecks_shape k admin config podControl cluster infos dryRun s
    simp only at h
    rcases h with ⟨_, hr⟩ | ⟨_, _, hr⟩ | ⟨_, _, _, hr⟩ | ⟨_, _, _, hr⟩ <;>
      rw [hr] <;> simp [Call.dryRun, replay, Call.perform]
  · have h := RunSanityChecks_shape k admin config podControl cluster infos true s
    simp only at h
    rcases h with ⟨_, hr⟩ | ⟨_, _, hr⟩ | ⟨_, _, _, hr⟩ | ⟨_, _, _, hr⟩ <;> rw [hr] <;>
      simp only [k1, k2, k3, k4]

/-- The record of calls of a run and the window: a record of
FixTerminatingPods carries 300000000000 ns and is present when the first two
checks return `(false, nil)`; the arithmetic of the window. -/
theorem RunSanityChecks_record_window (k : Checks A C P R I ε σ) (admin : A)
    (config : C) (podControl : P) (cluster : R) (infos : I) (dryRun : Bool) (s : σ) :
    let run := RunSanityChecks k admin config podControl cluster infos dryRun s
    (∀ c ∈ run.calls, c.1.name = .FixTerminatingPods →
      c.1 = .FixTerminatingPods cluster podControl 300000000000 dryRun) ∧
    ((k.FixFailedNodes admin cluster infos dryRun s).1 = ⟨false, none⟩ →
      (k.FixUntrustedNodes admin podControl cluster infos dryRun
        (k.FixFailedNodes admin cluster infos dryRun s).2).1 = ⟨false, none⟩ →
      ∃ o, (Call.FixTerminatingPods cluster podControl 300000000000 dryRun, o) ∈ run.calls) ∧
    5 * time.Minute = 300000000000 ∧ 300 * time.Second = 300000000000 ∧
    (300000000000 : Int) < 2 ^ 63 ∧
    5 * time.Minute < 6 * time.Minute ∧ 4 * time.Minute < 5 * time.Minute := by
  have hm : 5 * time.Minute = 300000000000 := by decide
  have h := RunSanityChecks_shape k admin config podControl cluster infos dryRun s
  simp only at h
  intro run
  simp only [run]
  refine ⟨?_, ?_, hm, by decide, by decide, by decide, by decide⟩
  · rcases h with ⟨_, hr⟩ | ⟨_, _, hr⟩ | ⟨_, _, _, hr⟩ | ⟨_, _, _, hr⟩ <;>
      rw [hr] <;> simp [Call.name, hm]
  · intro q1 q2
    rcases h with ⟨h1, hr⟩ | ⟨_, h2, hr⟩ | ⟨_, _, _, hr⟩ | ⟨_, _, _, hr⟩
    · simp [q1, Outcome.decisive] at h1
    · simp [q2, Outcome.decisive] at h2
    · rw [hr]; simp [hm]
    · rw [hr]; simp [hm]

/-- C2: the checks `RunSanityChecks` calls are the first ones of
[FixFailedNodes, FixUntrustedNodes, FixTerminatingPods, FixClusterSplit], each
at most once. The record of calls is faithful: its pairs are the ones the
checks return when the recorded calls are performed in order from the initial
state, and the final state is the one these calls leave, so that no check
outside the record has run. In terms of the pairs `r1 .. r4` the checks
return: the run stops after the first check whose pair is not `(false, nil)`,
leaving the state that check left; every called check but the last returned
`actionDone = false`, at most one called check reports `actionDone = true` and
it is the last one called; FixClusterSplit is called only when the three
checks before it returned `(false, nil)`. -/
theorem RunSanityChecks_calls_prefix (k : Checks A C P R I ε σ) (admin : A)
    (config : C) (podControl : P) (cluster : R) (infos : I) (dryRun : Bool) (s : σ) :
    let r1 := k.FixFailedNodes admin cluster infos dryRun s
    let r2 := k.FixUntrustedNodes admin podControl cluster infos dryRun r1.2
    let r3 := k.FixTerminatingPods cluster podControl 300000000000 dryRun r2.2
    let r4 := k.FixClusterSplit admin config infos dryRun r3.2
    let c1 : Call A C P R I := .FixFailedNodes admin cluster infos dryRun
    let c2 : Call A C P R I := .FixUntrustedNodes admin podControl cluster infos dryRun
    let c3 : Call A C P R I := .FixTerminatingPods cluster podControl 300000000000 dryRun
    let c4 : Call A C P R I := .FixClusterSplit admin config infos dryRun
    let run := RunSanityChecks k admin config podControl cluster infos dryRun s
    let names := run.calls.map (fun c => c.1.name)
    (run.calls = performAll k (run.calls.map Prod.fst) s ∧
      run.state = replay k (run.calls.map Prod.fst) s ∧
      run.calls.map Prod.fst <+: [c1, c2, c3, c4] ∧ run.calls ≠ []) ∧
    (names <+: checkOrder ∧ names ≠ [] ∧ names.Nodup ∧
      (∀ c ∈ run.calls.dropLast, c.2.actionDone = false) ∧
      (run.calls.filter (fun c => c.2.actionDone)).length ≤ 1 ∧
      (∀ c ∈ run.calls, c.2.actionDone = true → run.calls.getLast? = some c) ∧
      (CheckName.FixClusterSplit ∈ names →
        run.calls.dropLast.map (fun c => (c.1.name, c.2)) =
          [(.FixFailedNodes, ⟨false, none⟩), (.FixUntrustedNodes, ⟨false, none⟩),
           (.FixTerminatingPods, ⟨false, none⟩)])) ∧
    ((r1.1.decisive = true → run.calls = [(c1, r1.1)] ∧ run.state = r1.2) ∧
      (r1.1 = ⟨false, none⟩ → r2.1.decisive = true →
        run.calls = [(c1, r1.1), (c2, r2.1)] ∧ run.state = r2.2) ∧
      (r1.1 = ⟨false, none⟩ → r2.1 = ⟨false, none⟩ → r3.1.decisive = true →
        run.calls = [(c1, r1.1), (c2, r2.1), (c3, r3.1)] ∧ run.state = r3.2) ∧
      (r1.1 = ⟨false, none⟩ → r2.1 = ⟨false, none⟩ → r3.1 = ⟨false, none⟩ →
        run.calls = [(c1, r1.1), (c2, r2.1), (c3, r3.1), (c4, r4.1)] ∧ run.state = r4.2)) ∧
    (CheckName.FixClusterSplit ∈ names →
      r1.1 = ⟨false, none⟩ ∧ r2.1 = ⟨false, none⟩ ∧ r3.1 = ⟨false, none⟩) := by
  have hm : 5 * time.Minute = 300000000000 := by decide
  have hanch := RunSanityChecks_anchored k admin config podControl cluster infos dryRun s
  simp only [hm] at hanch
  have hcases := RunSanityChecks_by_cases k admin config podControl cluster infos dryRun s
  simp only at hcases
  obtain ⟨b1, b2, b3, b4⟩ := hcases
  have hrec := RunSanityChecks_record_prefix k admin config podControl cluster infos dryRun s
  have hshape := RunSanityChecks_shape k admin config podControl cluster infos dryRun s
  simp only [hm] at hshape
  intro r1 r2 r3 r4 c1 c2 c3 c4 run names
  refine ⟨hanch, hrec, ⟨?_, ?_, ?_, ?_⟩, ?_⟩
  · intro d1
    have hr : run = _ := b1 d1
    rw [hr]
    exact ⟨rfl, rfl⟩
  · intro q1 d2
    have hr : run = _ := b2 q1 d2
    rw [hr]
    exact ⟨rfl, rfl⟩
  · intro q1 q2 d3
    have hr : run = _ := b3 q1 q2 d3
    rw [hr]
    exact ⟨rfl, rfl⟩
  · intro q1 q2 q3
    have hr : run = _ := b4 q1 q2 q3
    rw [hr]
    exact ⟨rfl, rfl⟩
  · intro hmem
    simp only [names, run] at hmem
    rcases hshape with ⟨_, hr⟩ | ⟨_, _, hr⟩ | ⟨_, _, _, hr⟩ | ⟨h1, h2, h3, _⟩
    · rw [hr] at hmem
      simp [Call.name] at hmem
    · rw [hr] at hmem
      simp [Call.name] at hmem
    · rw [hr] at hmem
      simp [Call.name] at hmem
    · exact ⟨h1, h2, h3⟩

/-- C3: when a called check returns a non-nil error `e` together with
`actionDone = a`, `RunSanityChecks` returns `(a, e)` with that error, that
call is the last one it makes and no check later in the order is called; a
non-nil error returned by `RunSanityChecks` is the error returned by a check
it called. This is stated on the record of calls, which is faithful to the
checks and to the state, and on the pairs `r1 .. r4` the checks return: an
error of FixFailedNodes is returned with its pair and nothing else is called,
and likewise for each later check reached after pairs `(false, nil)`. -/
theorem RunSanityChecks_error_propagation (k : Checks A C P R I ε σ) (admin : A)
    (config : C) (podControl : P) (cluster : R) (infos : I) (dryRun : Bool) (s : σ) :
    let r1 := k.FixFailedNodes admin cluster infos dryRun s
    let r2 := k.FixUntrustedNodes admin podControl cluster infos dryRun r1.2
    let r3 := k.FixTerminatingPods cluster podControl 300000000000 dryRun r2.2
    let r4 := k.FixClusterSplit admin config infos dryRun r3.2
    let c1 : Call A C P R I := .FixFailedNodes admin cluster infos dryRun
    let c2 : Call A C P R I := .FixUntrustedNodes admin podControl cluster infos dryRun
    let c3 : Call A C P R I := .FixTerminatingPods cluster podControl 300000000000 dryRun
    let c4 : Call A C P R I := .FixClusterSplit admin config infos dryRun
    let run := RunSanityChecks k admin config podControl cluster infos dryRun s
    (run.calls = performAll k (run.calls.map Prod.fst) s ∧
      run.state = replay k (run.calls.map Prod.fst) s ∧
      run.calls.map Prod.fst <+: [c1, c2, c3, c4] ∧ run.calls ≠ []) ∧
    ((∀ c ∈ run.calls, ∀ e, c.2.err = some e →
        run.err = some e ∧ run.actionDone = c.2.actionDone ∧ run.calls.getLast? = some c ∧
        ∀ d ∈ run.calls, d.1.name.rank ≤ c.1.name.rank) ∧
      (∀ e, run.err = some e → ∃ c ∈ run.calls, c.2.err = some e)) ∧
    ((∀ e, r1.1.err = some e →
        run.result = r1.1 ∧ run.state = r1.2 ∧ run.calls = [(c1, r1.1)]) ∧
      (r1.1 = ⟨false, none⟩ → ∀ e, r2.1.err = some e →
        run.result = r2.1 ∧ run.state = r2.2 ∧ run.calls = [(c1, r1.1), (c2, r2.1)]) ∧
      (r1.1 = ⟨false, none⟩ → r2.1 = ⟨false, none⟩ → ∀ e, r3.1.err = some e →
        run.result = r3.1 ∧ run.state = r3.2 ∧
        run.calls = [(c1, r1.1), (c2, r2.1), (c3, r3.1)]) ∧
      (r1.1 = ⟨false, none⟩ → r2.1 = ⟨false, none⟩ → r3.1 = ⟨false, none⟩ →
        run.result = r4.1 ∧ run.state = r4.2 ∧
        run.calls = [(c1, r1.1), (c2, r2.1), (c3, r3.1), (c4, r4.1)])) ∧
    (∀ e, run.err = some e →
      r1.1.err = some e ∨ (r1.1 = ⟨false, none⟩ ∧ r2.1.err = some e) ∨
      (r1.1 = ⟨false, none⟩ ∧ r2.1 = ⟨false, none⟩ ∧ r3.1.err = some e) ∨
      (r1.1 = ⟨false, none⟩ ∧ r2.1 = ⟨false, none⟩ ∧ r3.1 = ⟨false, none⟩ ∧
        r4.1.err = some e)) := by
  have hm : 5 * time.Minute = 300000000000 := by decide
  have hanch := RunSanityChecks_anchored k admin config podControl cluster infos dryRun s
  simp only [hm] at hanch
  have hcases := RunSanityChecks_by_cases k admin config podControl cluster infos dryRun s
  simp only at hcases
  obtain ⟨b1, b2, b3, b4⟩ := hcases
  have hrec := RunSanityChecks_record_errors k admin config podControl cluster infos dryRun s
  have hshape := RunSanityChecks_shape k admin config podControl cluster infos dryRun s
  simp only [hm] at hshape
  have hd : ∀ (o : Outcome ε) e, o.err = some e → o.decisive = true := by
    intro o e he
    simp [Outcome.decisive, he]
  intro r1 r2 r3 r4 c1 c2 c3 c4 run
  refine ⟨hanch, hrec, ⟨?_, ?_, ?_, ?_⟩, ?_⟩
  · intro e he
    have hr : run = _ := b1 (hd _ e he)
    rw [hr]
    exact ⟨rfl, rfl, rfl⟩
  · intro q1 e he
    have hr : run = _ := b2 q1 (hd _ e he)
    rw [hr]
    exact ⟨rfl, rfl, rfl⟩
  · intro q1 q2 e he
    have hr : run = _ := b3 q1 q2 (hd _ e he)
    rw [hr]
    exact ⟨rfl, rfl, rfl⟩
  · intro q1 q2 q3
    have hr : run = _ := b4 q1 q2 q3
    rw [hr]
    exact ⟨rfl, rfl, rfl⟩
  · intro e he
    simp only [run] at he
    rcases hshape with ⟨_, hr⟩ | ⟨h1, _, hr⟩ | ⟨h1, h2, _, hr⟩ | ⟨h1, h2, h3, hr⟩
    · rw [hr] at he
      exact Or.inl he
    · rw [hr] at he
      exact Or.inr (Or.inl ⟨h1, he⟩)
    · rw [hr] at he
      exact Or.inr (Or.inr (Or.inl ⟨h1, h2, he⟩))
    · rw [hr] at he
      exact Or.inr (Or.inr (Or.inr ⟨h1, h2, h3, he⟩))

/-- C5: whenever `RunSanityChecks` calls FixTerminatingPods, which it does
exactly when the two checks before it returned `(false, nil)`, the window it
hands over is `5 * time.Minute` = 300 seconds = 300000000000 nanoseconds,
whatever the cluster, snapshot, configuration and `dryRun`: the pair returned
and the state left by the run are those of
`k.FixTerminatingPods cluster podControl 300000000000 dryRun` on the state
left by the first two checks (followed by FixClusterSplit when that pair is
`(false, nil)`), and the record of calls, faithful to the checks and the state,
carries that window. Six minutes are more than the window, four minutes
less, and the window fits an int64. -/
theorem RunSanityChecks_terminating_window (k : Checks A C P R I ε σ) (admin : A)
    (config : C) (podControl : P) (cluster : R) (infos : I) (dryRun : Bool) (s : σ) :
    let r1 := k.FixFailedNodes admin cluster infos dryRun s
    let r2 := k.FixUntrustedNodes admin podControl cluster infos dryRun r1.2
    let r3 := k.FixTerminatingPods cluster podControl 300000000000 dryRun r2.2
    let r4 := k.FixClusterSplit admin config infos dryRun r3.2
    let c1 : Call A C P R I := .FixFailedNodes admin cluster infos dryRun
    let c2 : Call A C P R I := .FixUntrustedNodes admin podControl cluster infos dryRun
    let c3 : Call A C P R I := .FixTerminatingPods cluster podControl 300000000000 dryRun
    let c4 : Call A C P R I := .FixClusterSplit admin config infos dryRun
    let run := RunSanityChecks k admin config podControl cluster infos dryRun s
    (run.calls = performAll k (run.calls.map Prod.fst) s ∧
      run.state = replay k (run.calls.map Prod.fst) s ∧
      run.calls.map Prod.fst <+: [c1, c2, c3, c4] ∧ run.calls ≠ []) ∧
    ((∀ c ∈ run.calls, c.1.name = .FixTerminatingPods →
        c.1 = .FixTerminatingPods cluster podControl 300000000000 dryRun) ∧
      ((k.FixFailedNodes admin cluster infos dryRun s).1 = ⟨false, none⟩ →
        (k.FixUntrustedNodes admin podControl cluster infos dryRun
          (k.FixFailedNodes admin cluster infos dryRun s).2).1 = ⟨false, none⟩ →
        ∃ o, (Call.FixTerminatingPods cluster podControl 300000000000 dryRun, o) ∈ run.calls) ∧
      5 * time.Minute = 300000000000 ∧ 300 * time.Second = 300000000000 ∧
      (300000000000 : Int) < 2 ^ 63 ∧
      5 * time.Minute < 6 * time.Minute ∧ 4 * time.Minute < 5 * time.Minute) ∧
    ((r1.1 = ⟨false, none⟩ → r2.1 = ⟨false, none⟩ → r3.1.decisive = true →
        run.result = r3.1 ∧ run.state = r3.2 ∧
        run.calls = [(c1, r1.1), (c2, r2.1), (c3, r3.1)]) ∧
      (r1.1 = ⟨false, none⟩ → r2.1 = ⟨false, none⟩ → r3.1 = ⟨false, none⟩ →
        run.result = r4.1 ∧ run.state = r4.2 ∧
        run.calls = [(c1, r1.1), (c2, r2.1), (c3, r3.1), (c4, r4.1)])) ∧
    ((∃ c ∈ run.calls, c.1.name = .FixTerminatingPods) →
      r1.1 = ⟨false, none⟩ ∧ r2.1 = ⟨false, none⟩) := by
  have hm : 5 * time.Minute = 300000000000 := by decide
  have hanch := RunSanityChecks_anchored k admin config podControl cluster infos dryRun s
  simp only [hm] at hanch
  have hcases := RunSanityChecks_by_cases k admin config podControl cluster infos dryRun s
  simp only at hcases
  obtain ⟨b1, b2, b3, b4⟩ := hcases
  have hrec := RunSanityChecks_record_window k admin config podControl cluster infos dryRun s
  have hshape := RunSanityChecks_shape k admin config podControl cluster infos dryRun s
  simp only [hm] at hshape
  intro r1 r2 r3 r4 c1 c2 c3 c4 run
  refine ⟨hanch, hrec, ⟨?_, ?_⟩, ?_⟩
  · intro q1 q2 d3
    have hr : run = _ := b3 q1 q2 d3
    rw [hr]
    exact ⟨rfl, rfl, rfl⟩
  · intro q1 q2 q3
    have hr : run = _ := b4 q1 q2 q3
    rw [hr]
    exact ⟨rfl, rfl, rfl⟩
  · rintro ⟨c, hc, hn⟩
    simp only [run] at hc
    rcases hshape with ⟨_, hr⟩ | ⟨_, _, hr⟩ | ⟨h1, h2, _, _⟩ | ⟨h1, h2, _, _⟩
    · rw [hr] at hc
      simp only [List.mem_singleton] at hc
      rw [hc] at hn
      simp [Call.name] at hn
    · rw [hr] at hc
      simp only [List.mem_cons, List.mem_singleton, List.not_mem_nil, or_false] at hc
      rcases hc with hc | hc <;> rw [hc] at hn <;> simp [Call.name] at hn
    · exact ⟨h1, h2⟩
    · exact ⟨h1, h2⟩

/-- Two concrete runs. On the sample checks the run stops at the untrusted
check, which reports an action; on the quiet checks all four checks are
called, with a window of 300000000000 ns for the terminating check, and the
pair `(true, error)` of the split check is returned as it is. -/
theorem RunSanityChecks_sample_runs :
    (RunSanityChecks sampleChecks () () () () () false []).result = ⟨true, none⟩ ∧
    (RunSanityChecks sampleChecks () () () () () false []).calls.map (fun c => c.1.name) =
      [.FixFailedNodes, .FixUntrustedNodes] ∧
    (RunSanityChecks quietChecks () () () () () false []).result = ⟨true, some "meet failed"⟩ ∧
    (RunSanityChecks quietChecks () () () () () false []).calls.map Prod.fst =
      [.FixFailedNodes () () () false, .FixUntrustedNodes () () () () false,
       .FixTerminatingPods () () 300000000000 false, .FixClusterSplit () () () false] ∧
    (RunSanityChecks quietChecks () () () () () false []).state = ["meet"] := by
  decide

/-- C4 at a concrete input: the sample checks are silent under dry-run; a
dry run on them leaves the list of mutating calls empty, while the same run
without dry-run issues one. -/
theorem RunSanityChecks_dryRun_no_mutation_witness :
    sampleChecks.dryRunSilent id ∧
    id (RunSanityChecks sampleChecks () () () () () true []).state = id [] ∧
    (RunSanityChecks sampleChecks () () () () () false []).state = ["forget node-1"] :=
  have hk : sampleChecks.dryRunSilent id := by
    refine ⟨fun _ _ _ _ => rfl, fun _ _ _ _ _ => rfl, fun _ _ w s => ?_, fun _ _ _ _ => rfl⟩
    simp only [sampleChecks]
    split <;> rfl
  ⟨hk, (RunSanityChecks_dryRun_no_mutation sampleChecks id hk () () () () () []).2, by decide⟩

end sanitycheck

namespace redis

/-- A key is looked up successfully exactly when it is a key of the table. -/
theorem Cluster.lookup_isSome_iff (c : Cluster) (id : String) :
    (c.lookup id).isSome = true ↔ id ∈ c.keys := by
  unfold Cluster.lookup Cluster.keys
  cases c.Nodes with
  | none => simp
  | some t => rw [← AList.mem_keys, ← AList.lookup_isSome]

/-- A lookup fails exactly when the key is not a key of the table. -/
theorem Cluster.lookup_eq_none_iff (c : Cluster) (id : String) :
    c.lookup id = none ↔ id ∉ c.keys := by
  rw [← Cluster.lookup_isSome_iff]
  cases c.lookup id <;> simp

/-- With none of the visited keys holding a node on which `f` holds, the
search fails. -/
theorem GetNodeByFunc_none_of_forall {ε : Type} (e : ε) (c : Cluster) (f : NodePtr → Bool)
    (order : List String)
    (h : ∀ id ∈ order, ∀ n, c.lookup id = some n → f n = false) :
    GetNodeByFunc e c f order = (none, some e) := by
  induction order with
  | nil => rfl
  | cons id rest ih =>
    have ih1 := ih (fun id1 h1 => h id1 (List.mem_cons_of_mem _ h1))
    unfold GetNodeByFunc
    cases hl : c.lookup id with
    | none => simpa using ih1
    | some n =>
      have hf := h id (List.mem_cons_self _ _) n hl
      simpa [hf] using ih1

/-- A search either fails with the not-found error, or returns a node that
is stored under a visited key and on which `f` holds. -/
theorem GetNodeByFunc_cases {ε : Type} (e : ε) (c : Cluster) (f : NodePtr → Bool)
    (order : List String) :
    GetNodeByFunc e c f order = (none, some e) ∨
    ∃ id n, id ∈ order ∧ c.lookup id = some n ∧ f n = true ∧
      GetNodeByFunc e c f order = (some n, none) := by
  induction order with
  | nil => exact Or.inl rfl
  | cons id rest ih =>
    unfold GetNodeByFunc
    cases hl : c.lookup id with
    | none =>
      rcases ih with h | ⟨id1, n, h1, h2, h3, h4⟩
      · exact Or.inl (by simpa using h)
      · exact Or.inr ⟨id1, n, List.mem_cons_of_mem _ h1, h2, h3, by simpa using h4⟩
    | some n =>
      by_cases hf : f n = true
      · exact Or.inr ⟨id, n, List.mem_cons_self _ _, hl, hf, by simp [hf]⟩
      · rcases ih with h | ⟨id1, m, h1, h2, h3, h4⟩
        · exact Or.inl (by simpa [hf] using h)
        · exact Or.inr ⟨id1, m, List.mem_cons_of_mem _ h1, h2, h3, by simpa [hf] using h4⟩

/-- A search over all the keys fails exactly when no stored node satisfies `f`. -/
theorem GetNodeByFunc_none_iff {ε : Type} (e : ε) (c : Cluster) (f : NodePtr → Bool)
    (order : List String) (hp : order.Perm c.keys) :
    GetNodeByFunc e c f order = (none, some e) ↔ ∀ n, c.stores n → f n = false := by
  constructor
  · intro hnone n ⟨id, hid⟩
    by_contra hf
    have hmem : id ∈ order := by
      rw [hp.mem_iff, ← Cluster.lookup_isSome_iff, hid]
      rfl
    have key : ∀ (l : List String), id ∈ l → GetNodeByFunc e c f l ≠ (none, some e) := by
      intro l
      induction l with
      | nil => intro hm; cases hm
      | cons a rest ih =>
        intro hm
        unfold GetNodeByFunc
        by_cases ha : a = id
        · subst ha
          simp [hid, Bool.not_eq_false _ ▸ hf]
        · have hm1 : id ∈ rest := by
            rcases List.mem_cons.1 hm with h | h
            · exact absurd h.symm ha
            · exact h
          cases hl : c.lookup a with
          | none => simpa using ih hm1
          | some m =>
            by_cases hfm : f m = true
            · simp [hfm]
            · simpa [hfm] using ih hm1
    exact key order hmem hnone
  · intro h
    exact GetNodeByFunc_none_of_forall e c f order (fun id _ n hl => h n ⟨id, hl⟩)

/-- On a nil `Nodes` map `AddNode` panics, whatever `Clear` and the node. -/
theorem AddNode_nil_map (Clear : NodePtr → Heap → Heap) (c : Cluster) (h : Heap)
    (node : NodePtr) (hnil : c.Nodes = none) : AddNode Clear c h node = none := by
  simp only [AddNode, hnil]

/-- C6, amended: on a cluster whose `Nodes` map is not nil, and with a
`Clear` that leaves the identifier of the added node as it is, `AddNode`
returns; afterwards `GetNodeByID` on the identifier `n.ID` of the added node
returns `(n, nil)`, whether or not a node was stored under it before; the
table holds that identifier once, so that a previous node is replaced and not
kept alongside; and every other identifier gives the same result as before
the call. Without a previous node the memory is left as it was. -/
theorem AddNode_GetNodeByID {ε : Type} (e : ε) (Clear : NodePtr → Heap → Heap) (c : Cluster)
    (h : Heap) (node : NodePtr) (hmap : c.Nodes ≠ none)
    (hClear : ∀ n, c.lookup (h node).ID = some n → (Clear n h node).ID = (h node).ID) :
    ∃ c1 h1, AddNode Clear c h node = some (c1, h1) ∧
      (h1 node).ID = (h node).ID ∧
      GetNodeByID e c1 (h node).ID = (some node, none) ∧
      c1.keys.count (h node).ID = 1 ∧
      (∀ id1, id1 ≠ (h node).ID → GetNodeByID e c1 id1 = GetNodeByID e c id1) ∧
      (c.lookup (h node).ID = none → h1 = h) := by
  obtain ⟨name, ns, nodes, info⟩ := c
  cases nodes with
  | none => exact absurd rfl hmap
  | some t =>
    have hid : ((match Cluster.lookup ⟨name, ns, some t, info⟩ (h node).ID with
        | some n => Clear n h
        | none => h) node).ID = (h node).ID := by
      cases hl : Cluster.lookup ⟨name, ns, some t, info⟩ (h node).ID with
      | none => rfl
      | some n => exact hClear n hl
    have hid1 := hid
    simp only [Cluster.lookup] at hid1
    refine ⟨_, _, rfl, hid, ?_, ?_, ?_, ?_⟩
    · simp only [GetNodeByID, Cluster.lookup, hid1, AList.lookup_insert]
    · apply List.count_eq_one_of_mem
      · exact AList.keys_nodup _
      · simp only [Cluster.keys, hid]
        rw [← AList.mem_keys]
        simp only [AList.mem_insert, true_or]
    · intro id1 hne
      simp only [GetNodeByID, Cluster.lookup, hid1]
      rw [AList.lookup_insert_ne hne]
    · intro hnone
      simp only [hnone]

/-- C6 at a concrete input: the node at address 5, with identifier id-c, is
added to the sample cluster, which holds the node at address 3 under id-c;
the sample `Clear` keeps identifiers. -/
theorem AddNode_GetNodeByID_witness :
    ∃ c1 h1, AddNode sampleClear sampleCluster sampleHeap 5 = some (c1, h1) ∧
      (h1 5).ID = (sampleHeap 5).ID ∧
      GetNodeByID "not found" c1 (sampleHeap 5).ID = (some 5, none) ∧
      c1.keys.count (sampleHeap 5).ID = 1 ∧
      (∀ id1, id1 ≠ (sampleHeap 5).ID →
        GetNodeByID "not found" c1 id1 = GetNodeByID "not found" sampleCluster id1) ∧
      (sampleCluster.lookup (sampleHeap 5).ID = none → h1 = sampleHeap) :=
  AddNode_GetNodeByID "not found" sampleClear sampleCluster sampleHeap 5 (by decide)
    (by
      intro n _
      simp only [sampleClear, Function.update]
      split
      · next hn => subst hn; rfl
      · rfl)

/-- C6 as stated fails on the zero-value cluster: its `Nodes` map is nil,
`GetNodeByID` finds nothing in it, and `AddNode` panics on the store, so that
there is no state after the call in which the node is found. -/
theorem AddNode_zero_cluster_panics :
    GetNodeByID "not found" zeroCluster (sampleHeap 1).ID = (none, some "not found") ∧
    AddNode sampleClear zeroCluster sampleHeap 1 = none ∧
    ¬ ∃ c1 h1, AddNode sampleClear zeroCluster sampleHeap 1 = some (c1, h1) ∧
      GetNodeByID "not found" c1 (sampleHeap 1).ID = (some 1, none) := by
  refine ⟨by decide, rfl, ?_⟩
  rintro ⟨c1, h1, hadd, _⟩
  have hnone : AddNode sampleClear zeroCluster sampleHeap 1 = none := rfl
  rw [hnone] at hadd
  cases hadd

/-- What the assumption on `Clear` is for: with a `Clear` that renames
nodes, the node at address 5 added to the sample cluster under id-c ends up
stored under the new name, and id-c still gives the node at address 3. -/
theorem AddNode_renaming_Clear :
    ∃ c1 h1, AddNode renamingClear sampleCluster sampleHeap 5 = some (c1, h1) ∧
      (sampleHeap 5).ID = "id-c" ∧ (h1 5).ID = "renamed" ∧
      GetNodeByID "not found" c1 "id-c" = (some 3, none) ∧
      GetNodeByID "not found" c1 "renamed" = (some 5, none) :=
  ⟨_, _, rfl, by decide, by decide, by decide, by decide⟩

/-- C7: `GetNodeByID` returns a nil node with the not-found error exactly
when the identifier is not a key of the table, returns the stored node with a
nil error otherwise, and returns the not-found error for every identifier on
a cluster built by `NewCluster`. -/
theorem GetNodeByID_spec {ε : Type} (e : ε) (c : Cluster) (id : String) :
    (GetNodeByID e c id = (none, some e) ↔ id ∉ c.keys) ∧
    (∀ n, c.lookup id = some n → GetNodeByID e c id = (some n, none)) ∧
    (id ∈ c.keys →
      ∃ n, c.lookup id = some n ∧ GetNodeByID e c id = (some n, none)) ∧
    (∀ name ns, GetNodeByID e (NewCluster name ns) id = (none, some e)) := by
  refine ⟨?_, ?_, ?_, ?_⟩
  · rw [← Cluster.lookup_eq_none_iff]
    unfold GetNodeByID
    cases hl : c.lookup id <;> simp
  · intro n hn
    simp only [GetNodeByID, hn]
  · intro hk
    rw [← Cluster.lookup_isSome_iff] at hk
    obtain ⟨n, hn⟩ := Option.isSome_iff_exists.1 hk
    exact ⟨n, hn, by simp only [GetNodeByID, hn]⟩
  · intro name ns
    simp only [GetNodeByID, NewCluster, Cluster.lookup, AList.lookup_empty]

/-- C8: over any order of visit of the keys, `GetNodeByFunc` returns a
stored node satisfying `f` with a nil error when some stored node satisfies
`f`, and a nil node with the not-found error exactly when none does;
`GetNodeByPodName` only returns stored nodes whose pod is non-nil and named
`name`, fails exactly when no stored node has such a pod, and never returns a
node whose pod is nil; `GetNodeByIP` only returns stored nodes with that IP. -/
theorem GetNodeByFunc_spec {ε : Type} (e : ε) (c : Cluster) (f : NodePtr → Bool)
    (order : List String) (hp : order.Perm c.keys) (h : Heap) (name ip : String) :
    ((∃ n, c.stores n ∧ f n = true) →
      ∃ n, GetNodeByFunc e c f order = (some n, none) ∧ c.stores n ∧ f n = true) ∧
    (GetNodeByFunc e c f order = (none, some e) ↔ ¬ ∃ n, c.stores n ∧ f n = true) ∧
    (GetNodeByFunc e c f order = (none, some e) ∨
      ∃ n, GetNodeByFunc e c f order = (some n, none) ∧ c.stores n ∧ f n = true) ∧
    (∀ n err, GetNodeByPodName e h c name order = (some n, err) →
      err = none ∧ c.stores n ∧ ∃ pod, (h n).Pod = some pod ∧ pod.Name = name) ∧
    (GetNodeByPodName e h c name order = (none, some e) ↔
      ∀ n, c.stores n → ∀ pod, (h n).Pod = some pod → pod.Name ≠ name) ∧
    (∀ n, (h n).Pod = none → (GetNodeByPodName e h c name order).1 ≠ some n) ∧
    (∀ n err, GetNodeByIP e h c ip order = (some n, err) →
      err = none ∧ c.stores n ∧ (h n).IP = ip) := by
  have hiff := GetNodeByFunc_none_iff e c f order hp
  have hcases : ∀ g : NodePtr → Bool, GetNodeByFunc e c g order = (none, some e) ∨
      ∃ n, GetNodeByFunc e c g order = (some n, none) ∧ c.stores n ∧ g n = true := by
    intro g
    rcases GetNodeByFunc_cases e c g order with h0 | ⟨id, n, _, h2, h3, h4⟩
    · exact Or.inl h0
    · exact Or.inr ⟨n, h4, ⟨id, h2⟩, h3⟩
  have hsome : ∀ (g : NodePtr → Bool) n err, GetNodeByFunc e c g order = (some n, err) →
      err = none ∧ c.stores n ∧ g n = true := by
    intro g n err hg
    rcases hcases g with h0 | ⟨m, h1, h2, h3⟩
    · rw [h0] at hg; cases hg
    · rw [h1] at hg
      cases hg
      exact ⟨rfl, h2, h3⟩
  refine ⟨?_, ?_, hcases f, ?_, ?_, ?_, ?_⟩
  · rintro ⟨n, hs, hf⟩
    rcases hcases f with h0 | h1
    · have := hiff.1 h0 n hs
      simp [hf] at this
    · exact h1
  · rw [hiff]
    constructor
    · rintro hall ⟨n, hs, hf⟩
      simp [hall n hs] at hf
    · intro hne n hs
      by_contra hf
      exact hne ⟨n, hs, by simpa using hf⟩
  · intro n err hg
    obtain ⟨h1, h2, h3⟩ := hsome _ n err hg
    refine ⟨h1, h2, ?_⟩
    cases hpod : (h n).Pod with
    | none => simp [hpod] at h3
    | some pod => exact ⟨pod, rfl, by simpa [hpod] using h3⟩
  · unfold GetNodeByPodName
    rw [GetNodeByFunc_none_iff e c _ order hp]
    constructor
    · intro hall n hs pod hpod hname
      have := hall n hs
      simp [hpod, hname] at this
    · intro hall n hs
      cases hpod : (h n).Pod with
      | none => rfl
      | some pod => simpa using hall n hs pod hpod
  · intro n hpod hret
    obtain ⟨_, _, h3⟩ := hsome _ n (GetNodeByPodName e h c name order).2
      (show GetNodeByFunc e c _ order = _ from Prod.ext hret rfl)
    simp [hpod] at h3
  · intro n err hg
    obtain ⟨h1, h2, h3⟩ := hsome _ n err hg
    exact ⟨h1, h2, by simpa using h3⟩

/-- C8 at a concrete input: on the sample cluster, visited in the order
id-b, id-a, id-c, the search by pod name "pod-0" returns the node at address 1
and the search for "pod-9" fails. -/
theorem GetNodeByFunc_spec_witness :
    List.Perm ["id-b", "id-a", "id-c"] sampleCluster.keys ∧
    GetNodeByPodName "not found" sampleHeap sampleCluster "pod-0" ["id-b", "id-a", "id-c"] =
      (some 1, none) ∧
    GetNodeByPodName "not found" sampleHeap sampleCluster "pod-9" ["id-b", "id-a", "id-c"] =
      (none, some "not found") ∧
    (GetNodeByPodName "not found" sampleHeap sampleCluster "pod-0"
      ["id-b", "id-a", "id-c"]).1 ≠ some 2 :=
  have hp : List.Perm ["id-b", "id-a", "id-c"] sampleCluster.keys := by decide
  ⟨hp, by decide, by decide,
    (GetNodeByFunc_spec "not found" sampleCluster (fun _ => true) ["id-b", "id-a", "id-c"] hp
      sampleHeap "pod-0" "10.0.0.1").2.2.2.2.2.1 2 rfl⟩

end redis

namespace controller

variable {O ε κ : Type}

/-- The loop only ever sends create requests for the headless service, and
it ends the function, if at all, by a panic or by returning the error of
`GetPodLabelsSet`. -/
theorem createPodServices_trace (kube : KubeClient O ε κ) (pods : PodFuncs O ε)
    (redisCluster : RedisCluster) (serviceName : String) (desiredAnnotations : LabelSet)
    (headless : Service O) (start : String) (remaining : Nat) :
    ∀ (i : Int) (serviceList : List (Service O)) (s : κ) (rq : List (Request O)),
      (∀ svc ∈ createRequests rq, svc = headless) →
      (∀ svc ∈ createRequests (createPodServices kube pods redisCluster serviceName
        desiredAnnotations headless start remaining i serviceList s rq).2.2.2, svc = headless) ∧
      ((createPodServices kube pods redisCluster serviceName desiredAnnotations headless start
          remaining i serviceList s rq).1 = none ∨
        (∃ v, (createPodServices kube pods redisCluster serviceName desiredAnnotations headless
          start remaining i serviceList s rq).1 = some (.panicked v)) ∨
        ∃ j err, pods.GetPodLabelsSet redisCluster j = .error err ∧
          (createPodServices kube pods redisCluster serviceName desiredAnnotations headless
            start remaining i serviceList s rq).1 = some (.returned [] (some err))) := by
  induction remaining with
  | zero =>
    intro i serviceList s rq hrq
    exact ⟨hrq, Or.inl rfl⟩
  | succ n ih =>
    intro i serviceList s rq hrq
    unfold createPodServices
    cases hparse : strconv.ParseInt start with
    | none => exact ih _ _ _ _ hrq
    | some nodePortStart =>
      cases hlab : pods.GetPodLabelsSet redisCluster (int32 i) with
      | error err => exact ⟨hrq, Or.inr (Or.inr ⟨_, err, hlab, rfl⟩)⟩
      | ok desiredPodlabels =>
        have hrq1 : ∀ svc ∈ createRequests
            (rq ++ [Request.Create redisCluster.Namespace headless]), svc = headless := by
          intro svc hsvc
          simp only [createRequests, List.filterMap_append, List.mem_append] at hsvc
          rcases hsvc with h | h
          · exact hrq svc h
          · simpa [List.filterMap] using h
        cases hc : (kube.Create redisCluster.Namespace headless s).1 with
        | some e =>
          simp only [hc]
          exact ⟨hrq1, Or.inr (Or.inl ⟨_, rfl⟩)⟩
        | none =>
          simp only [hc]
          exact ih _ _ _ _ hrq1

/-- The step after the loop adds at most one create request, for the
headless service, and returns no error of its own. -/
theorem createHeadless_trace (kube : KubeClient O ε κ) (pods : PodFuncs O ε)
    (redisCluster : RedisCluster) (headless : Service O)
    (x : Option (Flow O ε) × List (Service O) × κ × List (Request O))
    (hreq : ∀ svc ∈ createRequests x.2.2.2, svc = headless)
    (hflow : x.1 = none ∨ (∃ v, x.1 = some (.panicked v)) ∨
      ∃ j err, pods.GetPodLabelsSet redisCluster j = .error err ∧
        x.1 = some (.returned [] (some err))) :
    (∀ svc ∈ createRequests (createHeadless kube redisCluster headless x).2.2, svc = headless) ∧
    (∀ l e, (createHeadless kube redisCluster headless x).1 = .returned l (some e) →
      ∃ j, pods.GetPodLabelsSet redisCluster j = .error e) := by
  obtain ⟨flow, serviceList, s1, rq⟩ := x
  cases flow with
  | some f =>
    refine ⟨hreq, ?_⟩
    intro l e h
    simp only [createHeadless] at h
    rcases hflow with h0 | ⟨v, h1⟩ | ⟨j, err, h2, h3⟩
    · cases h0
    · simp only [Option.some.injEq] at h1
      rw [h1] at h
      cases h
    · simp only [Option.some.injEq] at h3
      rw [h3] at h
      simp only [Flow.returned.injEq, Option.some.injEq] at h
      exact ⟨j, by rw [← h.2]; exact h2⟩
  | none =>
    have hrq1 : ∀ svc ∈ createRequests
        (rq ++ [Request.Create redisCluster.Namespace headless]), svc = headless := by
      intro svc hsvc
      simp only [createRequests, List.filterMap_append, List.mem_append] at hsvc
      rcases hsvc with h | h
      · exact hreq svc h
      · simpa [List.filterMap] using h
    simp only [createHeadless]
    cases hc : (kube.Create redisCluster.Namespace headless s1).1 with
    | some e0 => exact ⟨hrq1, by simp⟩
    | none => exact ⟨hrq1, by simp⟩

/-- Every create request sent by the body carries the headless service, and
an error returned by the body is an error of one of the `pod` functions. -/
theorem createBody_trace (kube : KubeClient O ε κ) (pods : PodFuncs O ε)
    (redisCluster : RedisCluster) (s : κ) :
    (∀ svc ∈ createRequests (createBody kube pods redisCluster s).2.2,
      svc.Name = getServiceName redisCluster ∧
      svc.Ports = [{ Port := 6379, Name := "redis", NodePort := 0 }]) ∧
    (∀ l e, (createBody kube pods redisCluster s).1 = .returned l (some e) →
      pods.GetLabelsSet redisCluster = .error e ∨ pods.GetAnnotationsSet redisCluster = .error e ∨
      ∃ j, pods.GetPodLabelsSet redisCluster j = .error e) := by
  unfold createBody
  cases hl : pods.GetLabelsSet redisCluster with
  | error err =>
    refine ⟨by simp [createRequests], ?_⟩
    intro l e h
    simp only [Flow.returned.injEq, Option.some.injEq] at h
    exact Or.inl (by rw [h.2])
  | ok desiredlabels =>
    cases ha : pods.GetAnnotationsSet redisCluster with
    | error err =>
      refine ⟨by simp [createRequests], ?_⟩
      intro l e h
      simp only [Flow.returned.injEq, Option.some.injEq] at h
      exact Or.inr (Or.inl (by rw [h.2]))
    | ok desiredAnnotations =>
      cases hm : getNumberOfMaster redisCluster with
      | none => exact ⟨by simp [createRequests], by simp⟩
      | some numberOfMaster =>
        cases hr : getReplicationFactor redisCluster with
        | none => exact ⟨by simp [createRequests], by simp⟩
        | some replicationFactor =>
          simp only
          have hnil : ∀ svc ∈ createRequests ([] : List (Request O)),
              svc = newService pods redisCluster (getServiceName redisCluster) desiredlabels
                desiredAnnotations := by
            simp [createRequests]
          have hloop := createPodServices_trace kube pods redisCluster
            (getServiceName redisCluster) desiredAnnotations
            (newService pods redisCluster (getServiceName redisCluster) desiredlabels
              desiredAnnotations)
            (getServiceNodePortStart redisCluster)
            (int32 (numberOfMaster * replicationFactor)).toNat 0 [] s [] hnil
          have hfin := fun x h1 h2 => createHeadless_trace kube pods redisCluster
            (newService pods redisCluster (getServiceName redisCluster) desiredlabels
              desiredAnnotations) x h1 h2
          have hwrap : ∀ x, (∀ svc ∈ createRequests x.2.2.2,
                svc = newService pods redisCluster (getServiceName redisCluster) desiredlabels
                  desiredAnnotations) →
              (x.1 = none ∨ (∃ v, x.1 = some (.panicked v)) ∨
                ∃ j err, pods.GetPodLabelsSet redisCluster j = .error err ∧
                  x.1 = some (.returned [] (some err))) →
              (∀ svc ∈ createRequests (createHeadless kube redisCluster
                  (newService pods redisCluster (getServiceName redisCluster) desiredlabels
                    desiredAnnotations) x).2.2,
                svc.Name = getServiceName redisCluster ∧
                svc.Ports = [{ Port := 6379, Name := "redis", NodePort := 0 }]) ∧
              (∀ l e, (createHeadless kube redisCluster
                  (newService pods redisCluster (getServiceName redisCluster) desiredlabels
                    desiredAnnotations) x).1 = .returned l (some e) →
                Except.ok desiredlabels = Except.error e ∨
                Except.ok desiredAnnotations = Except.error e ∨
                ∃ j, pods.GetPodLabelsSet redisCluster j = .error e) := by
            intro x h1 h2
            obtain ⟨g1, g2⟩ := hfin x h1 h2
            refine ⟨fun svc hsvc => ?_, fun l e h => Or.inr (Or.inr (g2 l e h))⟩
            rw [g1 svc hsvc]
            exact ⟨rfl, rfl⟩
          by_cases hcond : getServiceNodePortStart redisCluster ≠ "" ∧
              strings.EqualFold (getServiceType redisCluster) ServiceTypeExternal = true
          · rw [if_pos hcond]
            exact hwrap _ hloop.1 hloop.2
          · rw [if_neg hcond]
            exact hwrap (none, [], s, []) hnil (Or.inl rfl)

/-- Delete requests are no create requests. -/
theorem createRequests_append_deletes (rq : List (Request O)) (ns : String)
    (l : List (Service O)) :
    createRequests (rq ++ l.map (fun svc => Request.Delete ns svc.Name)) = createRequests rq := by
  simp only [createRequests, List.filterMap_append, List.filterMap_map]
  have : List.filterMap ((fun r : Request O => match r with
      | .Create _ svc => some svc
      | .Delete _ _ => none) ∘ fun svc => Request.Delete ns svc.Name) l = [] := by
    induction l with
    | nil => rfl
    | cons a t ih => simp [List.filterMap_cons, ih]
  rw [this, List.append_nil]

/-- Whatever the client and the `pod` functions do, every create request sent
by `CreateRedisClusterService` carries the headless service named
`serviceName`, and an error it returns is an error of a `pod` function, never
the error of a create call. -/
theorem CreateRedisClusterService_trace (kube : KubeClient O ε κ) (pods : PodFuncs O ε)
    (redisCluster : RedisCluster) (s : κ) :
    (∀ svc ∈ createRequests (CreateRedisClusterService kube pods redisCluster s).requests,
      svc.Name = getServiceName redisCluster ∧
      svc.Ports = [{ Port := 6379, Name := "redis", NodePort := 0 }]) ∧
    (∀ e, (CreateRedisClusterService kube pods redisCluster s).err = some e →
      pods.GetLabelsSet redisCluster = .error e ∨ pods.GetAnnotationsSet redisCluster = .error e ∨
      ∃ j, pods.GetPodLabelsSet redisCluster j = .error e) := by
  obtain ⟨h1, h2⟩ := createBody_trace kube pods redisCluster s
  unfold CreateRedisClusterService
  rcases hb : createBody kube pods redisCluster s with ⟨flow, s1, rq⟩
  rw [hb] at h1 h2
  cases flow with
  | returned l err =>
    refine ⟨h1, ?_⟩
    intro e he
    simp only at he
    exact h2 l e (by rw [he])
  | panicked v =>
    cases v with
    | services created =>
      simp only [createRequests_append_deletes]
      exact ⟨h1, by simp⟩
    | runtime => exact ⟨h1, by simp⟩

/-- C9 at failing inputs. On a cluster that is not external, with a client
whose first create call fails, the single create call fails and
`CreateRedisClusterService` returns a nil slice and a nil error. On an
external cluster with one pod, with a client whose second create call fails,
it returns a nil slice and a nil error as well, after a delete request for the
per-pod service. -/
theorem CreateRedisClusterService_create_failure_nil_error :
    ((countingClient 0).Create "default"
      (newService samplePods internalCluster "svc" [("cluster", "rc")] []) 0).1 =
        some "create failed" ∧
    CreateRedisClusterService (countingClient 0) samplePods internalCluster 0 =
      { services := [], err := none, state := 1,
        requests := [Request.Create "default"
          (newService samplePods internalCluster "svc" [("cluster", "rc")] [])] } ∧
    CreateRedisClusterService (countingClient 1) samplePods externalCluster 0 =
      { services := [], err := none, state := 2,
        requests := [
          Request.Create "default"
            (newService samplePods externalCluster "svc" [("cluster", "rc")] []),
          Request.Create "default"
            (newService samplePods externalCluster "svc" [("cluster", "rc")] []),
          Request.Delete "default" "svc-external-0"] } := by
  decide

/-- C10 at a failing input. On an external cluster named svc with one pod
and node ports starting at 30000, every create call succeeding, the two create
requests sent both carry the headless service svc with no node port, where
a request for svc-external-0 with NodePort 30000 followed by one for svc is
called for; the per-pod service appears in the returned slice only. -/
theorem CreateRedisClusterService_external_requests :
    strings.EqualFold (getServiceType externalCluster) ServiceTypeExternal = true ∧
    strconv.ParseInt (getServiceNodePortStart externalCluster) = some 30000 ∧
    (CreateRedisClusterService (countingClient 9) samplePods externalCluster 0).err = none ∧
    (createRequests (CreateRedisClusterService (countingClient 9) samplePods externalCluster
      0).requests).map Service.nameAndNodePort = [("svc", 0), ("svc", 0)] ∧
    expectedCreates "svc" 30000 1 = [("svc-external-0", 30000), ("svc", 0)] ∧
    (CreateRedisClusterService (countingClient 9) samplePods externalCluster 0).services.map
      Service.nameAndNodePort = [("svc-external-0", 30000), ("svc", 0)] := by
  decide

end controller
